import Mathlib

/-!
# Verification of the watchman process-supervisor core (`src/state.rs`)

This file embeds the reconciliation engine of the watchman supervisor:
the `ProcessStatus` state machine, the per-record operations
(`check_status` / `update` / `run` / `kill` / `fix`) and the registry
operations (`add` / `fix_all` / `update_all`), together with the JSON
persistence layer (`from_file` / `to_file`).

The OS facade (`system::get_by_pid`, `system::get_by_cmd`,
`system::kill_by_pid`, `system::run_from_string`, `utils::get_output_path`)
is not part of the core source; it is modelled as an abstract `Observer`
record of pure query functions, following the interface the spec assigns to
the ProcessObserver collaborator.  Every per-record operation additionally
returns the list of observer calls it performed, so that "issues no observer
call" properties are directly statable.  `kill` is recursive in the source
with no structural decrease; it is embedded with an explicit fuel argument,
`none` meaning the given fuel was exhausted without the recursion returning.
-/

namespace Watchman

/-- A live OS process as reported by the observer: its PID and command line.
(Mirrors the `Process` value returned by `system::get_by_pid` /
`system::get_by_cmd`, of which `state.rs` reads the fields `pid` and `cmd`.) -/
structure Proc where
  pid : Int
  cmd : String
deriving DecidableEq, Repr

/-- `ProcessStatus` from `state.rs`: Disabled / Running(pid) / Invalid(pid) /
Stopped(pid). -/
inductive ProcessStatus where
  /-- Process is not expected to run. -/
  | Disabled : ProcessStatus
  /-- Expecting the process to be running with pid. -/
  | Running (pid : Int) : ProcessStatus
  /-- Expected process is not running, but there is another one with pid. -/
  | Invalid (pid : Int) : ProcessStatus
  /-- Expected process is not running, there is nothing with pid. -/
  | Stopped (pid : Int) : ProcessStatus
deriving DecidableEq, Repr

/-- `ProcessConfig` from `state.rs`.  `output` is kept as a plain string path. -/
structure ProcessConfig where
  name : Option String
  cmd : String
  status : ProcessStatus
  output : Option String
deriving DecidableEq, Repr

/-- One call made to the OS facade: a PID lookup (`get_by_pid`), a scan by
command line (`get_by_cmd`), a termination request (`kill_by_pid`) or a spawn
(`run_from_string`). -/
inductive ObsCall where
  | byPid (pid : Int) : ObsCall
  | byCmd (cmd : String) : ObsCall
  | termReq (pid : Int) : ObsCall
  | spawnReq (cmd : String) (path : Option String) : ObsCall
deriving DecidableEq, Repr

/-- Modelled from the spec: the ProcessObserver facade (`system` and `utils`
modules, absent from the core source).  A snapshot of pure answers:
`getByPid` / `getByCmd` resolve live processes, `killByPid` reports whether a
live process was found and signalled, `runFromString` spawns a detached
process for a command line (with output redirected to the given path) and
returns its PID or an error, `getOutputPath` is `utils::get_output_path().ok()`,
the process-wide default log location. -/
structure Observer where
  getByPid : Int → Option Proc
  getByCmd : String → Option Proc
  killByPid : Int → Bool
  runFromString : String → Option String → Except String Int
  getOutputPath : Option String

/-- An observer is well-formed when a PID lookup only reports a process at the
queried PID (the spec's `lookup_by_pid(pid) -> Option<command_line>` shape). -/
def Observer.WF (obs : Observer) : Prop :=
  ∀ p proc, obs.getByPid p = some proc → proc.pid = p

/-- `ProcessConfig::get_pid`: the PID remembered by the current status, if any. -/
def ProcessConfig.get_pid (c : ProcessConfig) : Option Int :=
  match c.status with
  | ProcessStatus.Running p => some p
  | ProcessStatus.Invalid p => some p
  | ProcessStatus.Stopped p => some p
  | _ => none

/-- `ProcessConfig::is_running`. -/
def ProcessConfig.is_running (c : ProcessConfig) : Bool :=
  match c.status with
  | ProcessStatus.Running _ => true
  | _ => false

/-- `ProcessConfig::is_enabled`. -/
def ProcessConfig.is_enabled (c : ProcessConfig) : Bool :=
  match c.status with
  | ProcessStatus.Disabled => false
  | _ => true

/-- `ProcessConfig::check_status`, with the list of observer calls it makes.
No remembered PID ⇒ `Disabled` (no call); otherwise one `get_by_pid` lookup:
not found ⇒ `Stopped(pid)`, found with equal command line ⇒ `Running(proc.pid)`,
found with a different command line ⇒ `Invalid(proc.pid)`. -/
def ProcessConfig.check_statusT (obs : Observer) (c : ProcessConfig) :
    ProcessStatus × List ObsCall :=
  match c.get_pid with
  | none => (ProcessStatus.Disabled, [])
  | some pid =>
    match obs.getByPid pid with
    | none => (ProcessStatus.Stopped pid, [ObsCall.byPid pid])
    | some proc =>
      if c.cmd = proc.cmd then
        (ProcessStatus.Running proc.pid, [ObsCall.byPid pid])
      else
        (ProcessStatus.Invalid proc.pid, [ObsCall.byPid pid])

/-- `ProcessConfig::update`: store `check_status`'s result, then, if the record
is enabled but not running, scan by command line (`get_by_cmd`) and adopt the
first match by overriding the status with `Running(adopted.pid)`. -/
def ProcessConfig.updateT (obs : Observer) (c : ProcessConfig) :
    ProcessConfig × List ObsCall :=
  let r := c.check_statusT obs
  let c1 : ProcessConfig := { c with status := r.1 }
  if c1.is_enabled && !c1.is_running then
    match obs.getByCmd c.cmd with
    | some adopted =>
      ({ c1 with status := ProcessStatus.Running adopted.pid },
        r.2 ++ [ObsCall.byCmd c.cmd])
    | none => (c1, r.2 ++ [ObsCall.byCmd c.cmd])
  else
    (c1, r.2)

/-- How `ProcessConfig::run` can fail: the spawn facade returned an error
(propagated by `?`), or one of the two post-spawn `panic!` aborts fired. -/
inductive RunError where
  /-- `run_from_string` returned `Err`, propagated by `?`. -/
  | spawnFailed (e : String) : RunError
  /-- `panic!("Empty cmd: ...")`: observed command line shorter than 2 bytes. -/
  | panicEmptyCmd : RunError
  /-- `panic!("Changed cmd: ...")`: observed command line differs from `cmd`. -/
  | panicChangedCmd : RunError
deriving DecidableEq, Repr

/-- `ProcessConfig::run`, with the final record value and the observer calls.
Reconcile first; if not running afterwards, spawn `cmd` with output redirected
to `output` or the default path, set `Running(new_pid)`, then re-query the new
PID and abort on an empty or changed command line. -/
def ProcessConfig.runT (obs : Observer) (c : ProcessConfig) :
    (Except RunError Unit × ProcessConfig) × List ObsCall :=
  let u := c.updateT obs
  let c1 := u.1
  if c1.is_running then
    ((Except.ok (), c1), u.2)
  else
    let logs_path := c1.output.or obs.getOutputPath
    match obs.runFromString c1.cmd logs_path with
    | Except.error e =>
      ((Except.error (RunError.spawnFailed e), c1),
        u.2 ++ [ObsCall.spawnReq c1.cmd logs_path])
    | Except.ok res =>
      let c2 : ProcessConfig := { c1 with status := ProcessStatus.Running res }
      let t2 := u.2 ++ [ObsCall.spawnReq c1.cmd logs_path, ObsCall.byPid res]
      match obs.getByPid res with
      | none => ((Except.ok (), c2), t2)
      | some proc =>
        if proc.cmd.utf8ByteSize < 2 then
          ((Except.error RunError.panicEmptyCmd, c2), t2)
        else if c2.cmd ≠ proc.cmd then
          ((Except.error RunError.panicChangedCmd, c2), t2)
        else
          ((Except.ok (), c2), t2)

/-- `ProcessConfig::fix`: `run` when enabled, otherwise succeed untouched. -/
def ProcessConfig.fixT (obs : Observer) (c : ProcessConfig) :
    (Except RunError Unit × ProcessConfig) × List ObsCall :=
  if c.is_enabled then c.runT obs else ((Except.ok (), c), [])

/-- `ProcessConfig::kill`, fuel-indexed: the source recurses on itself after
every termination request with no bound, so the embedding takes a fuel
argument; `none` means the fuel ran out before the recursion returned.
On `Running(pid)`: request termination, recurse, and return the first
request's result together with the recursion's final record.  On
`Stopped(_)`: set `Disabled`, report `false`.  Otherwise: report `false`. -/
def ProcessConfig.killT (obs : Observer) :
    Nat → ProcessConfig → Option ((Bool × ProcessConfig) × List ObsCall)
  | 0, _ => none
  | Nat.succ fuel, c =>
    let u := c.updateT obs
    let c1 := u.1
    match c1.status with
    | ProcessStatus.Running pid =>
      let res := obs.killByPid pid
      match ProcessConfig.killT obs fuel c1 with
      | none => none
      | some ((_, c2), t2) =>
        some ((res, c2), u.2 ++ [ObsCall.termReq pid] ++ t2)
    | ProcessStatus.Stopped _ =>
      some ((false, { c1 with status := ProcessStatus.Disabled }), u.2)
    | _ => some ((false, c1), u.2)

/-- The registry: `type State = Vec<ProcessConfig>`. -/
abbrev State : Type := List ProcessConfig

/-- `StateTrait::add` for `State`: build a record with status `Disabled`,
`run` it, and only on success push it onto the registry; a run failure leaves
the registry unchanged and surfaces the error. -/
def State.addT (obs : Observer) (s : State) (cmd : String)
    (name : Option String) (output : Option String) :
    (Except RunError Unit × State) × List ObsCall :=
  let pc : ProcessConfig :=
    { name := name, cmd := cmd, status := ProcessStatus.Disabled,
      output := output }
  match pc.runT obs with
  | ((Except.ok _, pc1), t) => ((Except.ok (), s ++ [pc1]), t)
  | ((Except.error e, _), t) => ((Except.error e, s), t)

/-- `StateTrait::update_all`: reconcile every record in sequence. -/
def State.update_allT (obs : Observer) (s : State) : State × List ObsCall :=
  match s with
  | [] => ([], [])
  | c :: rest =>
    let u := c.updateT obs
    let r := State.update_allT obs rest
    (u.1 :: r.1, u.2 ++ r.2)

/-- `StateTrait::fix_all`: `fix` each record in sequence order; the lazy
`collect::<Result>` stops at the first `Err`, so later records are not
touched and the first error is returned. -/
def State.fix_allT (obs : Observer) (s : State) :
    (Except RunError Unit × State) × List ObsCall :=
  match s with
  | [] => ((Except.ok (), []), [])
  | c :: rest =>
    match c.fixT obs with
    | ((Except.ok _, c1), t) =>
      let r := State.fix_allT obs rest
      ((r.1.1, c1 :: r.1.2), t ++ r.2)
    | ((Except.error e, c1), t) => ((Except.error e, c1 :: rest), t)

/-! ## Persistence: the JSON layer behind `to_file` and `from_file`

`to_file` writes `serde_json::to_string_pretty(&self)` followed by one
newline; `from_file` parses the file's text with `serde_json::from_str`.
The serializer is embedded exactly (pretty printing with two-space
indentation, field order of the struct declaration, unit enum variant as a
string, newtype variants as one-entry objects, the string escapes serde
emits).  The parser is embedded for the canonical shape the serializer
produces — fields in declaration order and all present — while remaining
insensitive to inter-token whitespace and accepting both escape spellings;
the full serde parser accepts a superset (arbitrary field order, absent
`status`), which the claims settled here do not exercise. -/

/-- The sixteen lowercase hexadecimal digit characters (serde's digit table;
decimal printing uses the first ten). -/
def hexDigit : Nat → Char
  | 0 => '0' | 1 => '1' | 2 => '2' | 3 => '3' | 4 => '4'
  | 5 => '5' | 6 => '6' | 7 => '7' | 8 => '8' | 9 => '9'
  | 10 => 'a' | 11 => 'b' | 12 => 'c' | 13 => 'd' | 14 => 'e' | 15 => 'f'
  | _ => '0'

/-- serde_json's escape of one string character: `"` and `\` get a backslash,
the named control escapes are used for backspace, tab, newline, form feed and
carriage return, any other control character becomes `\u00XX`, and everything
else is emitted raw. -/
def escapeChar (c : Char) : List Char :=
  if c = '"' then ['\\', '"']
  else if c = '\\' then ['\\', '\\']
  else if c.toNat < 32 then
    match c.toNat with
    | 8 => ['\\', 'b']
    | 9 => ['\\', 't']
    | 10 => ['\\', 'n']
    | 12 => ['\\', 'f']
    | 13 => ['\\', 'r']
    | n => ['\\', 'u', '0', '0', hexDigit (n / 16), hexDigit (n % 16)]
  else [c]

/-- Escape every character of a string body. -/
def escapeChars : List Char → List Char
  | [] => []
  | c :: cs => escapeChar c ++ escapeChars cs

/-- Decimal digits of a natural number, most significant first. -/
def natToChars (n : Nat) : List Char :=
  if _h : n < 10 then [hexDigit n]
  else natToChars (n / 10) ++ [hexDigit (n % 10)]
termination_by n
decreasing_by exact Nat.div_lt_self (by omega) (by omega)

/-- Decimal rendering of an integer PID. -/
def renderInt (p : Int) : List Char :=
  if p < 0 then '-' :: natToChars p.natAbs else natToChars p.natAbs

/-- A JSON string literal: quote, escaped body, quote. -/
def renderStr (s : String) : List Char :=
  '"' :: (escapeChars s.data ++ ['"'])

/-- An optional string: JSON `null` when absent. -/
def renderOptStr : Option String → List Char
  | none => "null".data
  | some s => renderStr s

/-- A newtype status variant at record-field depth: serde serializes
`Running(pid)` as the one-entry object `\x7b "Running": pid \x7d`, pretty
printed with its field at three indentation levels. -/
def statusObj (tag : String) (p : Int) : List Char :=
  '\x7b' :: '\n' :: ("      \"".data ++ tag.data ++ "\": ".data ++
    renderInt p ++ ('\n' :: "    \x7d".data))

/-- The status tag encoding: unit variant as a plain string, newtype
variants as one-entry objects. -/
def renderStatus : ProcessStatus → List Char
  | ProcessStatus.Disabled => "\"Disabled\"".data
  | ProcessStatus.Running p => statusObj "Running" p
  | ProcessStatus.Invalid p => statusObj "Invalid" p
  | ProcessStatus.Stopped p => statusObj "Stopped" p

/-- One record, pretty printed at one indentation level, fields in struct
declaration order. -/
def renderRecord (c : ProcessConfig) : List Char :=
  "  \x7b\n    \"name\": ".data ++ renderOptStr c.name ++
  ",\n    \"cmd\": ".data ++ renderStr c.cmd ++
  ",\n    \"status\": ".data ++ renderStatus c.status ++
  ",\n    \"output\": ".data ++ renderOptStr c.output ++
  "\n  \x7d".data

/-- Every record after the first is preceded by the array item separator. -/
def renderTail : List ProcessConfig → List Char
  | [] => []
  | c :: rest => ",\n".data ++ renderRecord c ++ renderTail rest

/-- The registry as a pretty-printed JSON array. -/
def renderState : State → List Char
  | [] => "[]".data
  | c :: rest => "[\n".data ++ renderRecord c ++ renderTail rest ++ "\n]".data

/-- `State::to_file`'s file content: the pretty-printed state plus the
trailing newline written after it. -/
def to_file_content (s : State) : String :=
  String.mk (renderState s ++ ['\n'])

/-- The four whitespace characters `serde_json` skips between tokens. -/
def isWs (c : Char) : Bool :=
  c = ' ' || c = '\n' || c = '\t' || c = '\r'

/-- Drop leading whitespace. -/
def skipWs : List Char → List Char
  | [] => []
  | c :: cs => if isWs c then skipWs cs else c :: cs

/-- Match an exact literal, returning the remaining input. -/
def expect : List Char → List Char → Option (List Char)
  | [], input => some input
  | l :: ls, input =>
    match input with
    | c :: cs => if c = l then expect ls cs else none
    | [] => none

/-- Skip whitespace, then match a literal token. -/
def expectTok (lit : String) (input : List Char) : Option (List Char) :=
  expect lit.data (skipWs input)

/-- The named escapes a JSON string may contain. -/
def escDecode : Char → Option Char
  | '"' => some '"'
  | '\\' => some '\\'
  | '/' => some '/'
  | 'b' => some (Char.ofNat 8)
  | 'f' => some (Char.ofNat 12)
  | 'n' => some '\n'
  | 'r' => some '\r'
  | 't' => some '\t'
  | _ => none

/-- Hexadecimal digit test (both cases, as serde accepts). -/
def isHex (c : Char) : Bool :=
  c.isDigit || ('a' ≤ c && c ≤ 'f') || ('A' ≤ c && c ≤ 'F')

/-- Value of a hexadecimal digit character. -/
def hexVal (c : Char) : Nat :=
  if 97 ≤ c.toNat then c.toNat - 87
  else if 65 ≤ c.toNat then c.toNat - 55
  else c.toNat - 48

/-- Parse a string body up to the closing quote: raw characters, named
escapes, and `\uXXXX`; unescaped control characters are rejected.
(Surrogate-pair recombination is not modelled; the canonical serializer
only emits `\u00XX`.) -/
def parseStringBody : List Char → Option (List Char × List Char)
  | [] => none
  | c :: cs =>
    if c = '"' then some ([], cs)
    else if c = '\\' then
      match cs with
      | 'u' :: h1 :: h2 :: h3 :: h4 :: cs1 =>
        if isHex h1 && isHex h2 && isHex h3 && isHex h4 then
          (parseStringBody cs1).map fun sr =>
            (Char.ofNat (((hexVal h1 * 16 + hexVal h2) * 16 + hexVal h3) * 16 +
              hexVal h4) :: sr.1, sr.2)
        else none
      | e :: cs1 =>
        match escDecode e with
        | some d => (parseStringBody cs1).map fun sr => (d :: sr.1, sr.2)
        | none => none
      | [] => none
    else if c.toNat < 32 then none
    else (parseStringBody cs).map fun sr => (c :: sr.1, sr.2)

/-- Accumulate decimal digits greedily. -/
def parseDigits : List Char → Nat → Nat × List Char
  | [], acc => (acc, [])
  | c :: cs, acc =>
    if c.isDigit then parseDigits cs (acc * 10 + (c.toNat - 48))
    else (acc, c :: cs)

/-- Parse a natural number (at least one digit). -/
def parseNat (input : List Char) : Option (Nat × List Char) :=
  match input with
  | c :: cs => if c.isDigit then some (parseDigits (c :: cs) 0) else none
  | [] => none

/-- Parse an optionally-signed integer after skipping whitespace. -/
def parseInt (input : List Char) : Option (Int × List Char) :=
  match skipWs input with
  | '-' :: r1 => (parseNat r1).map fun nr => (-(nr.1 : Int), nr.2)
  | r => (parseNat r).map fun nr => ((nr.1 : Int), nr.2)

/-- Parse a JSON string literal after skipping whitespace. -/
def parseStr (input : List Char) : Option (String × List Char) :=
  match skipWs input with
  | '"' :: r => (parseStringBody r).map fun sr => (String.mk sr.1, sr.2)
  | _ => none

/-- Parse `null` or a string literal. -/
def parseOptStr (input : List Char) : Option (Option String × List Char) :=
  match skipWs input with
  | 'n' :: 'u' :: 'l' :: 'l' :: r => some (none, r)
  | '"' :: r => (parseStringBody r).map fun sr => (some (String.mk sr.1), sr.2)
  | _ => none

/-- Parse the integer payload and closing brace of a newtype status
variant. -/
def parseStatusPayload (mk : Int → ProcessStatus) (input : List Char) :
    Option (ProcessStatus × List Char) :=
  (expectTok ":" input).bind fun r1 =>
  (parseInt r1).bind fun pr =>
  (expectTok "\x7d" pr.2).map fun r2 => (mk pr.1, r2)

/-- Parse a status value: the string `"Disabled"` or a one-entry object
tagged `Running`, `Invalid` or `Stopped`. -/
def parseStatus (input : List Char) : Option (ProcessStatus × List Char) :=
  match skipWs input with
  | '"' :: r =>
    (expect ("Disabled\"".data) r).map fun r1 => (ProcessStatus.Disabled, r1)
  | '\x7b' :: r =>
    match expect ("\"Running\"".data) (skipWs r) with
    | some r1 => parseStatusPayload ProcessStatus.Running r1
    | none =>
      match expect ("\"Invalid\"".data) (skipWs r) with
      | some r1 => parseStatusPayload ProcessStatus.Invalid r1
      | none =>
        match expect ("\"Stopped\"".data) (skipWs r) with
        | some r1 => parseStatusPayload ProcessStatus.Stopped r1
        | none => none
  | _ => none

/-- Parse an object key followed by its colon. -/
def parseKey (key : String) (input : List Char) : Option (List Char) :=
  (expectTok key input).bind fun r => expectTok ":" r

/-- Parse the comma separating two object entries, then a key and its
colon. -/
def parseKeySep (key : String) (input : List Char) : Option (List Char) :=
  (expectTok "," input).bind fun r => parseKey key r

/-- Parse one record object, fields in declaration order. -/
def parseRecord (input : List Char) : Option (ProcessConfig × List Char) := do
  let r1 ← expectTok "\x7b" input
  let r2 ← parseKey "\"name\"" r1
  let nr ← parseOptStr r2
  let r3 ← parseKeySep "\"cmd\"" nr.2
  let cr ← parseStr r3
  let r4 ← parseKeySep "\"status\"" cr.2
  let sr ← parseStatus r4
  let r5 ← parseKeySep "\"output\"" sr.2
  let outr ← parseOptStr r5
  let r6 ← expectTok "\x7d" outr.2
  pure (⟨nr.1, cr.1, sr.1, outr.1⟩, r6)

/-- Parse the remaining records of a non-empty array: either the closing
bracket or a comma followed by one more record.  The fuel bounds the number
of records and is decremented once per record. -/
def parseRecsTail : Nat → List Char → Option (List ProcessConfig × List Char)
  | fuel, input =>
    match skipWs input with
    | ']' :: rest => some ([], rest)
    | ',' :: rest =>
      match fuel with
      | 0 => none
      | Nat.succ fuel1 =>
        (parseRecord rest).bind fun pr =>
        (parseRecsTail fuel1 pr.2).map fun tr => (pr.1 :: tr.1, tr.2)
    | _ => none

/-- Parse a whole persisted state: a JSON array of records followed only by
trailing whitespace (as `serde_json::from_str` requires end of input). -/
def parseState (input : List Char) : Option State :=
  match skipWs input with
  | '[' :: rest =>
    match skipWs rest with
    | ']' :: rest1 => if skipWs rest1 = [] then some [] else none
    | _ =>
      (parseRecord rest).bind fun pr =>
      (parseRecsTail input.length pr.2).bind fun tr =>
      if skipWs tr.2 = [] then some (pr.1 :: tr.1) else none
  | _ => none

/-- `State::from_file` on a file whose text is `content`: parse it, `none`
standing for serde's `ParseError`. -/
def from_file_parse (content : String) : Option State :=
  parseState content.data

/-! ## Round-trip lemmas for the persistence layer -/

theorem expect_append (l r : List Char) : expect l (l ++ r) = some r := by
  induction l with
  | nil => rfl
  | cons c cs ih => simp [expect, ih]

theorem isHex_hexDigit (d : Nat) (h : d < 16) : isHex (hexDigit d) = true := by
  interval_cases d <;> decide

theorem hexVal_hexDigit (d : Nat) (h : d < 16) : hexVal (hexDigit d) = d := by
  interval_cases d <;> decide

/-- Parsing inverts serde's string escaping. -/
theorem parseStringBody_escape (cs rest : List Char) :
    parseStringBody (escapeChars cs ++ '"' :: rest) = some (cs, rest) := by
  induction cs with
  | nil =>
    show parseStringBody (escapeChars [] ++ '"' :: rest) = _
    unfold escapeChars parseStringBody
    simp
  | cons c cs ih =>
    show parseStringBody ((escapeChar c ++ escapeChars cs) ++ '"' :: rest) = _
    rw [List.append_assoc]
    by_cases hq : c = '"'
    · subst hq
      simp [escapeChar, parseStringBody, escDecode, ih]
    · by_cases hb : c = '\\'
      · subst hb
        simp [escapeChar, parseStringBody, escDecode, ih]
      · by_cases hc : c.toNat < 32
        · obtain ⟨n, hn⟩ : ∃ n, c.toNat = n := ⟨c.toNat, rfl⟩
          have hcn : Char.ofNat n = c := by
            rw [← hn]
            exact Char.ofNat_toNat c
          have hn32 : n < 32 := hn ▸ hc
          interval_cases n <;>
            simp_all [escapeChar, parseStringBody, escDecode, isHex, hexVal,
              hexDigit] <;>
            rw [← hcn]
        · rw [show escapeChar c = [c] by simp [escapeChar, hq, hb, hc]]
          show parseStringBody (c :: (escapeChars cs ++ '"' :: rest)) = _
          unfold parseStringBody
          simp [hq, hb, hc, ih]

/-- Parsing inverts the rendering of a JSON string literal. -/
theorem parseStr_render (s : String) (r : List Char) :
    parseStr (renderStr s ++ r) = some (s, r) := by
  have h1 : renderStr s ++ r = '"' :: (escapeChars s.data ++ ('"' :: r)) := by
    simp [renderStr]
  rw [h1]
  show (parseStringBody (escapeChars s.data ++ ('"' :: r))).map _ = _
  rw [parseStringBody_escape]
  rfl

/-- Parsing inverts the rendering of an optional string. -/
theorem parseOptStr_render (o : Option String) (r : List Char) :
    parseOptStr (renderOptStr o ++ r) = some (o, r) := by
  cases o with
  | none => rfl
  | some s =>
    have h1 : renderOptStr (some s) ++ r =
        '"' :: (escapeChars s.data ++ ('"' :: r)) := by
      simp [renderOptStr, renderStr]
    rw [h1]
    show (parseStringBody (escapeChars s.data ++ ('"' :: r))).map _ = _
    rw [parseStringBody_escape]
    rfl

/-- Each character of a decimal rendering is a digit — in particular not
whitespace, not a minus sign. -/
theorem natToChars_props (n : Nat) :
    ∀ c ∈ natToChars n, c.isDigit = true ∧ isWs c = false ∧ c ≠ '-' := by
  induction n using Nat.strong_induction_on with
  | _ n ih =>
    rw [natToChars]
    split
    · intro c hc
      rw [List.mem_singleton] at hc
      subst hc
      rename_i h
      interval_cases n <;> exact ⟨by decide, by decide, by decide⟩
    · intro c hc
      rw [List.mem_append] at hc
      rcases hc with hc | hc
      · exact ih (n / 10) (Nat.div_lt_self (by omega) (by omega)) c hc
      · rw [List.mem_singleton] at hc
        subst hc
        have h10 : n % 10 < 10 := Nat.mod_lt n (by omega)
        interval_cases h : n % 10 <;> exact ⟨by decide, by decide, by decide⟩

theorem natToChars_ne_nil (n : Nat) : natToChars n ≠ [] := by
  rw [natToChars]
  split
  · simp
  · simp

theorem hexDigit_sub (d : Nat) (h : d < 10) : (hexDigit d).toNat - 48 = d := by
  interval_cases d <;> decide

theorem natToChars_foldl (n acc : Nat) :
    List.foldl (fun a c => a * 10 + (c.toNat - 48)) acc (natToChars n) =
      acc * 10 ^ (natToChars n).length + n := by
  induction n using Nat.strong_induction_on generalizing acc with
  | _ n ih =>
    rw [natToChars]
    split
    · rename_i h
      simp [hexDigit_sub n h]
    · rename_i h
      rw [List.foldl_append, List.length_append,
        ih (n / 10) (Nat.div_lt_self (by omega) (by omega)) acc]
      have h10 : n % 10 < 10 := Nat.mod_lt n (by omega)
      simp only [List.foldl_cons, List.foldl_nil, List.length_cons,
        List.length_nil, Nat.zero_add]
      rw [hexDigit_sub (n % 10) h10, pow_succ, ← mul_assoc]
      generalize acc * 10 ^ (natToChars (n / 10)).length = B
      omega

/-- A first character that is not a digit stops `parseDigits`. -/
def noDigitHead (rest : List Char) : Prop :=
  ∀ c, rest.head? = some c → c.isDigit = false

theorem parseDigits_append (ds : List Char) (hds : ∀ c ∈ ds, c.isDigit = true)
    (rest : List Char) (hr : noDigitHead rest) (acc : Nat) :
    parseDigits (ds ++ rest) acc =
      (List.foldl (fun a c => a * 10 + (c.toNat - 48)) acc ds, rest) := by
  induction ds generalizing acc with
  | nil =>
    cases rest with
    | nil => rfl
    | cons c cs =>
      have := hr c rfl
      simp [parseDigits, this]
  | cons d ds ih =>
    have hd : d.isDigit = true := hds d (by simp)
    simp only [List.cons_append, parseDigits, hd, if_pos, List.foldl_cons]
    exact ih (fun c hc => hds c (by simp [hc])) _

theorem parseNat_render (n : Nat) (rest : List Char) (hr : noDigitHead rest) :
    parseNat (natToChars n ++ rest) = some (n, rest) := by
  obtain ⟨c, cs, hcc⟩ : ∃ c cs, natToChars n = c :: cs := by
    cases h : natToChars n with
    | nil => exact absurd h (natToChars_ne_nil n)
    | cons c cs => exact ⟨c, cs, rfl⟩
  have hall : ∀ x ∈ natToChars n, Char.isDigit x = true :=
    fun x hx => (natToChars_props n x hx).1
  have hc : c.isDigit = true := hall c (by rw [hcc]; simp)
  have hpd := parseDigits_append (natToChars n) hall rest hr 0
  rw [natToChars_foldl n 0] at hpd
  simp only [Nat.zero_mul, Nat.zero_add] at hpd
  rw [hcc] at hpd
  rw [hcc]
  simp only [List.cons_append] at hpd ⊢
  simp [parseNat, hc, hpd]

theorem parseInt_render (p : Int) (rest : List Char) (hr : noDigitHead rest) :
    parseInt (renderInt p ++ rest) = some (p, rest) := by
  by_cases hp : p < 0
  · have h1 : renderInt p ++ rest = '-' :: (natToChars p.natAbs ++ rest) := by
      simp [renderInt, hp]
    rw [h1]
    show (parseNat (natToChars p.natAbs ++ rest)).map _ = _
    rw [parseNat_render p.natAbs rest hr]
    simp only [Option.map_some']
    have hnn : -(p.natAbs : Int) = p := by omega
    rw [hnn]
  · have h1 : renderInt p ++ rest = natToChars p.natAbs ++ rest := by
      simp [renderInt, hp]
    rw [h1]
    obtain ⟨c, cs, hcc⟩ : ∃ c cs, natToChars p.natAbs = c :: cs := by
      cases h : natToChars p.natAbs with
      | nil => exact absurd h (natToChars_ne_nil _)
      | cons c cs => exact ⟨c, cs, rfl⟩
    obtain ⟨hcd, hcw, hcm⟩ := natToChars_props p.natAbs c (by rw [hcc]; simp)
    have hres : parseNat (c :: (cs ++ rest)) = some (p.natAbs, rest) := by
      have := parseNat_render p.natAbs rest hr
      rw [hcc] at this
      simpa using this
    rw [hcc, List.cons_append]
    unfold parseInt
    have hskip : skipWs (c :: (cs ++ rest)) = c :: (cs ++ rest) := by
      simp [skipWs, hcw]
    rw [hskip]
    split
    · rename_i r1 heq
      injection heq with he1 he2
      exact absurd he1 hcm
    · rw [hres]
      simp only [Option.map_some']
      have hnn : ((p.natAbs : Nat) : Int) = p := by omega
      rw [hnn]

/-- Leading newline before a record is whitespace to the parser. -/
theorem parseRecord_shift_nl (z : List Char) :
    parseRecord ('\n' :: z) = parseRecord z := rfl

/-- Parsing inverts the rendering of a status payload tail. -/
theorem parseStatusPayload_render (mk : Int → ProcessStatus) (p : Int)
    (r : List Char) :
    parseStatusPayload mk
      (':' :: ' ' :: (renderInt p ++ ('\n' :: ("    \x7d".data ++ r)))) =
      some (mk p, r) := by
  have hnd : noDigitHead ('\n' :: ("    \x7d".data ++ r)) := by
    intro c h
    simp only [List.head?_cons, Option.some.injEq] at h
    subst h
    decide
  show (parseInt (renderInt p ++ ('\n' :: ("    \x7d".data ++ r)))).bind _ = _
  rw [parseInt_render p _ hnd]
  rfl

/-- Parsing inverts the rendering of a status value. -/
theorem parseStatus_render (st : ProcessStatus) (r : List Char) :
    parseStatus (renderStatus st ++ r) = some (st, r) := by
  cases st with
  | Disabled => rfl
  | Running p =>
    have h1 : renderStatus (ProcessStatus.Running p) ++ r =
        '\x7b' :: '\n' :: ("      \"".data ++ ("Running".data ++ ("\": ".data ++
          (renderInt p ++ ('\n' :: ("    \x7d".data ++ r)))))) := by
      simp [renderStatus, statusObj]
    rw [h1]
    show parseStatusPayload ProcessStatus.Running
      (':' :: ' ' :: (renderInt p ++ ('\n' :: ("    \x7d".data ++ r)))) = _
    exact parseStatusPayload_render ProcessStatus.Running p r
  | Invalid p =>
    have h1 : renderStatus (ProcessStatus.Invalid p) ++ r =
        '\x7b' :: '\n' :: ("      \"".data ++ ("Invalid".data ++ ("\": ".data ++
          (renderInt p ++ ('\n' :: ("    \x7d".data ++ r)))))) := by
      simp [renderStatus, statusObj]
    rw [h1]
    show parseStatusPayload ProcessStatus.Invalid
      (':' :: ' ' :: (renderInt p ++ ('\n' :: ("    \x7d".data ++ r)))) = _
    exact parseStatusPayload_render ProcessStatus.Invalid p r
  | Stopped p =>
    have h1 : renderStatus (ProcessStatus.Stopped p) ++ r =
        '\x7b' :: '\n' :: ("      \"".data ++ ("Stopped".data ++ ("\": ".data ++
          (renderInt p ++ ('\n' :: ("    \x7d".data ++ r)))))) := by
      simp [renderStatus, statusObj]
    rw [h1]
    show parseStatusPayload ProcessStatus.Stopped
      (':' :: ' ' :: (renderInt p ++ ('\n' :: ("    \x7d".data ++ r)))) = _
    exact parseStatusPayload_render ProcessStatus.Stopped p r

/-- Parsing inverts the rendering of one record. -/
theorem parseRecord_render (c : ProcessConfig) (rest : List Char) :
    parseRecord (renderRecord c ++ rest) = some (c, rest) := by
  obtain ⟨nm, cm, st, out⟩ := c
  have h1 : renderRecord ⟨nm, cm, st, out⟩ ++ rest =
      "  \x7b\n    \"name\": ".data ++ (renderOptStr nm ++
        (",\n    \"cmd\": ".data ++ (renderStr cm ++
          (",\n    \"status\": ".data ++ (renderStatus st ++
            (",\n    \"output\": ".data ++ (renderOptStr out ++
              ("\n  \x7d".data ++ rest)))))))) := by
    simp [renderRecord]
  rw [h1]
  show (parseOptStr (renderOptStr nm ++
    (",\n    \"cmd\": ".data ++ (renderStr cm ++
      (",\n    \"status\": ".data ++ (renderStatus st ++
        (",\n    \"output\": ".data ++ (renderOptStr out ++
          ("\n  \x7d".data ++ rest))))))))).bind _ = _
  rw [parseOptStr_render nm _]
  show (parseStr (renderStr cm ++
    (",\n    \"status\": ".data ++ (renderStatus st ++
      (",\n    \"output\": ".data ++ (renderOptStr out ++
        ("\n  \x7d".data ++ rest))))))).bind _ = _
  rw [parseStr_render cm _]
  show (parseStatus (renderStatus st ++
    (",\n    \"output\": ".data ++ (renderOptStr out ++
      ("\n  \x7d".data ++ rest))))).bind _ = _
  rw [parseStatus_render st _]
  show (parseOptStr (renderOptStr out ++ ("\n  \x7d".data ++ rest))).bind _ = _
  rw [parseOptStr_render out _]
  rfl

/-- Parsing inverts the rendering of the records after the first, given
enough fuel. -/
theorem parseRecsTail_render (cs : List ProcessConfig) (fuel : Nat)
    (x : List Char) (h : cs.length ≤ fuel) :
    parseRecsTail fuel (renderTail cs ++ ('\n' :: ']' :: x)) = some (cs, x) := by
  induction cs generalizing fuel with
  | nil =>
    show parseRecsTail fuel ('\n' :: ']' :: x) = some ([], x)
    rw [parseRecsTail]
    rfl
  | cons c cs ih =>
    cases fuel with
    | zero => exact absurd h (by simp)
    | succ f =>
      have h2 : cs.length ≤ f := by
        simp only [List.length_cons] at h
        omega
      have h1 : renderTail (c :: cs) ++ ('\n' :: ']' :: x) =
          ',' :: '\n' :: (renderRecord c ++
            (renderTail cs ++ ('\n' :: ']' :: x))) := by
        simp [renderTail]
      rw [h1, parseRecsTail]
      show (parseRecord ('\n' :: (renderRecord c ++
        (renderTail cs ++ ('\n' :: ']' :: x))))).bind _ = _
      rw [parseRecord_shift_nl, parseRecord_render]
      show (parseRecsTail f (renderTail cs ++ ('\n' :: ']' :: x))).map _ = _
      rw [ih f h2]
      rfl

theorem renderTail_length_ge (cs : List ProcessConfig) :
    cs.length ≤ (renderTail cs).length := by
  induction cs with
  | nil => simp [renderTail]
  | cons c cs ih =>
    simp only [renderTail, List.length_append, List.length_cons]
    simp at ih ⊢
    omega

/-- Loading the saved file recovers the state exactly. -/
theorem from_to_roundtrip (s : State) :
    from_file_parse (to_file_content s) = some s := by
  cases s with
  | nil => rfl
  | cons c cs =>
    show parseState (renderState (c :: cs) ++ ['\n']) = _
    have h1 : renderState (c :: cs) ++ ['\n'] =
        '[' :: '\n' :: (renderRecord c ++
          (renderTail cs ++ ('\n' :: ']' :: ['\n']))) := by
      simp [renderState]
    rw [h1]
    unfold parseState
    show (parseRecord ('\n' :: (renderRecord c ++
      (renderTail cs ++ ('\n' :: ']' :: ['\n']))))).bind _ = _
    rw [parseRecord_shift_nl, parseRecord_render]
    have hlen : cs.length ≤
        ('[' :: '\n' :: (renderRecord c ++
          (renderTail cs ++ ('\n' :: ']' :: ['\n'])))).length := by
      have := renderTail_length_ge cs
      simp only [List.length_cons, List.length_append]
      omega
    show (parseRecsTail ('[' :: '\n' :: (renderRecord c ++
      (renderTail cs ++ ('\n' :: ']' :: ['\n'])))).length
      (renderTail cs ++ ('\n' :: ']' :: ['\n']))).bind _ = _
    rw [parseRecsTail_render cs _ ['\n'] hlen]
    rfl

/-! ## Helper lemmas -/

/-- Replacing the status by itself is the identity. -/
theorem ProcessConfig.set_status_self (c : ProcessConfig) :
    { c with status := c.status } = c := rfl

/-- An update of a `Disabled` record returns it unchanged and makes no
observer call. -/
theorem ProcessConfig.updateT_of_disabled (obs : Observer) (c : ProcessConfig)
    (h : c.status = ProcessStatus.Disabled) : c.updateT obs = (c, []) := by
  have hpid : c.get_pid = none := by
    simp [ProcessConfig.get_pid, h]
  have hc1 : ({ c with status := ProcessStatus.Disabled } : ProcessConfig) = c := by
    rw [← h]
  simp [ProcessConfig.updateT, ProcessConfig.check_statusT, hpid, hc1,
    ProcessConfig.is_enabled, h]

/-- `update` never issues a termination request. -/
theorem ProcessConfig.termReq_not_mem_updateT (obs : Observer)
    (c : ProcessConfig) (p : Int) :
    ObsCall.termReq p ∉ (c.updateT obs).2 := by
  unfold ProcessConfig.updateT ProcessConfig.check_statusT
  repeat' split
  all_goals (try rw [apply_ite Prod.snd])
  all_goals (try split_ifs)
  all_goals simp

/-- `update` preserves the `cmd` field. -/
theorem ProcessConfig.updateT_cmd (obs : Observer) (c : ProcessConfig) :
    ((c.updateT obs).1).cmd = c.cmd := by
  simp only [ProcessConfig.updateT]
  split
  · split <;> rfl
  · rfl

/-! ## Concrete observers and records used by the witnesses -/

/-- An observer with no live processes; spawns get PID 42. -/
def emptyObs : Observer :=
  { getByPid := fun _ => none,
    getByCmd := fun _ => none,
    killByPid := fun _ => false,
    runFromString := fun _ _ => Except.ok 42,
    getOutputPath := some "/tmp/log" }

/-- An observer where every PID lookup fails but the scan for `"sleep 100"`
finds a live process at PID 9. -/
def adoptObs : Observer :=
  { getByPid := fun _ => none,
    getByCmd := fun s => if s = "sleep 100" then some ⟨9, "sleep 100"⟩ else none,
    killByPid := fun _ => false,
    runFromString := fun _ _ => Except.error "no spawn",
    getOutputPath := none }

/-- An observer answering every query positively. -/
def busyObs : Observer :=
  { getByPid := fun q => some ⟨q, "x"⟩,
    getByCmd := fun s => some ⟨3, s⟩,
    killByPid := fun _ => true,
    runFromString := fun _ _ => Except.ok 8,
    getOutputPath := some "/tmp/log" }

/-- An observer where every PID hosts the command line `"job"`. -/
def jobObs : Observer :=
  { getByPid := fun q => some ⟨q, "job"⟩,
    getByCmd := fun _ => none,
    killByPid := fun _ => true,
    runFromString := fun _ _ => Except.ok 77,
    getOutputPath := none }

/-- An observer where every PID hosts the command line `"other"`. -/
def otherObs : Observer :=
  { getByPid := fun q => some ⟨q, "other"⟩,
    getByCmd := fun _ => none,
    killByPid := fun _ => true,
    runFromString := fun _ _ => Except.ok 8,
    getOutputPath := none }

/-! ## Claims -/

/-- C1: for every enabled record whose remembered PID has no live process in
the observer snapshot, but the scan by command line finds a live process for
the record's `cmd`, `update` sets the status to `Running(adopted.pid)`. -/
theorem C1_adoption_on_dead_pid (obs : Observer) (c : ProcessConfig)
    (p : Int) (ap : Proc)
    (hpid : c.get_pid = some p) (hdead : obs.getByPid p = none)
    (hadopt : obs.getByCmd c.cmd = some ap) :
    ((c.updateT obs).1).status = ProcessStatus.Running ap.pid := by
  simp [ProcessConfig.updateT, ProcessConfig.check_statusT, hpid, hdead,
    hadopt, ProcessConfig.is_enabled, ProcessConfig.is_running]

/-- C1 witness: a `Stopped(4321)` record whose PID is dead gets adopted at the
scanning observer's PID 9. -/
theorem C1_adoption_on_dead_pid_witness :
    ((ProcessConfig.updateT adoptObs
      ⟨none, "sleep 100", ProcessStatus.Stopped 4321, none⟩).1).status =
      ProcessStatus.Running 9 :=
  C1_adoption_on_dead_pid adoptObs
    ⟨none, "sleep 100", ProcessStatus.Stopped 4321, none⟩ 4321 ⟨9, "sleep 100"⟩
    rfl rfl rfl

/-- C2: for every record with status `Disabled`, `update` leaves the record
unchanged and issues no observer call at all (no PID lookup, no scan). -/
theorem C2_disabled_noop (obs : Observer) (c : ProcessConfig)
    (h : c.status = ProcessStatus.Disabled) :
    c.updateT obs = (c, []) :=
  ProcessConfig.updateT_of_disabled obs c h

/-- C2 witness: a concrete disabled record under an observer that would
answer every query. -/
theorem C2_disabled_noop_witness :
    ProcessConfig.updateT busyObs ⟨some "w", "x", ProcessStatus.Disabled, none⟩ =
      (⟨some "w", "x", ProcessStatus.Disabled, none⟩, []) :=
  C2_disabled_noop busyObs ⟨some "w", "x", ProcessStatus.Disabled, none⟩ rfl

/-- C3: `run` is idempotent on a running record: when the observer confirms a
live process at the remembered PID whose command line equals `cmd`, `run`
spawns nothing (its only observer call is the PID lookup), leaves the record
unchanged and succeeds; running twice equals running once. -/
theorem C3_run_idempotent (obs : Observer) (c : ProcessConfig) (p : Int)
    (proc : Proc) (hwf : obs.WF)
    (hst : c.status = ProcessStatus.Running p)
    (hlive : obs.getByPid p = some proc) (hcmd : proc.cmd = c.cmd) :
    c.runT obs = ((Except.ok (), c), [ObsCall.byPid p]) ∧
    (((c.runT obs).1.2).runT obs = c.runT obs) := by
  have hp : proc.pid = p := hwf p proc hlive
  have hpid : c.get_pid = some p := by
    simp [ProcessConfig.get_pid, hst]
  have hcs : c.check_statusT obs = (ProcessStatus.Running p, [ObsCall.byPid p]) := by
    simp [ProcessConfig.check_statusT, hpid, hlive, hcmd, hp]
  have hc1 : ({ c with status := ProcessStatus.Running p } : ProcessConfig) = c := by
    rw [← hst]
  have hrun : c.is_running = true := by
    simp [ProcessConfig.is_running, hst]
  have hu : c.updateT obs = (c, [ObsCall.byPid p]) := by
    simp [ProcessConfig.updateT, hcs, hc1, hrun]
  have h1 : c.runT obs = ((Except.ok (), c), [ObsCall.byPid p]) := by
    simp [ProcessConfig.runT, hu, hrun]
  exact ⟨h1, by rw [h1, h1]⟩

/-- C3 witness: a confirmed-running record under a well-formed observer. -/
theorem C3_run_idempotent_witness :
    ProcessConfig.runT jobObs ⟨none, "job", ProcessStatus.Running 5, none⟩ =
      ((Except.ok (), ⟨none, "job", ProcessStatus.Running 5, none⟩),
        [ObsCall.byPid 5]) ∧
    (((ProcessConfig.runT jobObs
        ⟨none, "job", ProcessStatus.Running 5, none⟩).1.2).runT jobObs =
      ProcessConfig.runT jobObs ⟨none, "job", ProcessStatus.Running 5, none⟩) :=
  C3_run_idempotent jobObs ⟨none, "job", ProcessStatus.Running 5, none⟩ 5
    ⟨5, "job"⟩
    (fun p proc h => by
      simp only [jobObs, Option.some.injEq] at h
      rw [← h])
    rfl rfl rfl

/-- C4: when reconciliation leaves the record `Disabled` or `Invalid`, `kill`
returns `false`, keeps the reconciled record unchanged, and its observer
calls are exactly the reconciliation's, which contain no termination
request. -/
theorem C4_kill_noop_on_disabled_invalid (obs : Observer) (c : ProcessConfig)
    (fuel : Nat)
    (h : (c.updateT obs).1.status = ProcessStatus.Disabled ∨
      ∃ q, (c.updateT obs).1.status = ProcessStatus.Invalid q) :
    c.killT obs (fuel + 1) =
      some ((false, (c.updateT obs).1), (c.updateT obs).2) ∧
    ∀ p, ObsCall.termReq p ∉ (c.updateT obs).2 := by
  refine ⟨?_, fun p => ProcessConfig.termReq_not_mem_updateT obs c p⟩
  rcases h with h | ⟨q, h⟩ <;>
    simp [ProcessConfig.killT, h]

/-- C4 witness: an `Invalid` record (live process at the remembered PID runs
a different command line, no adoptable match) is left untouched by `kill`. -/
theorem C4_kill_noop_on_disabled_invalid_witness :
    ProcessConfig.killT otherObs (0 + 1)
      ⟨none, "a", ProcessStatus.Invalid 5, none⟩ =
      some ((false,
        (ProcessConfig.updateT otherObs
          ⟨none, "a", ProcessStatus.Invalid 5, none⟩).1),
        (ProcessConfig.updateT otherObs
          ⟨none, "a", ProcessStatus.Invalid 5, none⟩).2) :=
  (C4_kill_noop_on_disabled_invalid otherObs
    ⟨none, "a", ProcessStatus.Invalid 5, none⟩ 0 (Or.inr ⟨5, by decide⟩)).1

/-- C9: when the record is not `Running` after reconciliation, the spawn
returns PID `q`, and the observer has no process at `q`, `run` succeeds with
status `Running(q)`: the post-spawn verification is silently skipped. -/
theorem C9_unverified_spawn_succeeds (obs : Observer) (c : ProcessConfig)
    (q : Int)
    (hnr : ((c.updateT obs).1).is_running = false)
    (hspawn : obs.runFromString ((c.updateT obs).1).cmd
      (((c.updateT obs).1).output.or obs.getOutputPath) = Except.ok q)
    (hnone : obs.getByPid q = none) :
    c.runT obs =
      ((Except.ok (), { (c.updateT obs).1 with status := ProcessStatus.Running q }),
        (c.updateT obs).2 ++
          [ObsCall.spawnReq ((c.updateT obs).1).cmd
            (((c.updateT obs).1).output.or obs.getOutputPath),
           ObsCall.byPid q]) := by
  simp [ProcessConfig.runT, hnr, hspawn, hnone]

/-- C9 witness: a `Stopped` record whose spawn yields an unobservable PID 42
still ends `Running 42` with success. -/
theorem C9_unverified_spawn_succeeds_witness :
    ProcessConfig.runT emptyObs
      ⟨none, "sleep 100", ProcessStatus.Stopped 4321, none⟩ =
      ((Except.ok (),
        { (ProcessConfig.updateT emptyObs
            ⟨none, "sleep 100", ProcessStatus.Stopped 4321, none⟩).1 with
          status := ProcessStatus.Running 42 }),
        (ProcessConfig.updateT emptyObs
          ⟨none, "sleep 100", ProcessStatus.Stopped 4321, none⟩).2 ++
          [ObsCall.spawnReq
            ((ProcessConfig.updateT emptyObs
              ⟨none, "sleep 100", ProcessStatus.Stopped 4321, none⟩).1).cmd
            (((ProcessConfig.updateT emptyObs
              ⟨none, "sleep 100", ProcessStatus.Stopped 4321, none⟩).1).output.or
              emptyObs.getOutputPath),
           ObsCall.byPid 42]) :=
  C9_unverified_spawn_succeeds emptyObs
    ⟨none, "sleep 100", ProcessStatus.Stopped 4321, none⟩ 42 rfl rfl rfl

/-- C5: `fix_all` fixes records in sequence order; the first record whose
`fix` fails aborts the batch: its error is returned, every earlier record is
replaced by its fixed value, the failing record keeps its partially-updated
value, later records are untouched and contribute no observer call. -/
theorem C5_fix_all_first_error (obs : Observer) (s1 : State)
    (c : ProcessConfig) (s2 : State) (e : RunError)
    (hok : ∀ x ∈ s1, (x.fixT obs).1.1 = Except.ok ())
    (herr : (c.fixT obs).1.1 = Except.error e) :
    State.fix_allT obs (s1 ++ c :: s2) =
      ((Except.error e,
        s1.map (fun x => (x.fixT obs).1.2) ++ (c.fixT obs).1.2 :: s2),
        (s1.map (fun x => (x.fixT obs).2)).flatten ++ (c.fixT obs).2) := by
  induction s1 with
  | nil =>
    rcases hfc : c.fixT obs with ⟨⟨r, c1⟩, t⟩
    rw [hfc] at herr
    simp only at herr
    subst herr
    simp [State.fix_allT, hfc]
  | cons x s1 ih =>
    have hx : (x.fixT obs).1.1 = Except.ok () := hok x (by simp)
    rcases hfx : x.fixT obs with ⟨⟨rx, x1⟩, tx⟩
    rw [hfx] at hx
    simp only at hx
    subst hx
    have ih' := ih (fun y hy => hok y (by simp [hy]))
    simp [State.fix_allT, hfx, ih']

/-- A disabled record named `"d"`: `fix` leaves it alone. -/
def dRec : ProcessConfig := ⟨none, "d", ProcessStatus.Disabled, none⟩

/-- An enabled `Stopped` record whose spawn will fail under `adoptObs`. -/
def xRec : ProcessConfig := ⟨none, "x", ProcessStatus.Stopped 1, none⟩

/-- A disabled record named `"z"`, sitting after the failing one. -/
def zRec : ProcessConfig := ⟨none, "z", ProcessStatus.Disabled, none⟩

/-- C5 witness: in `[dRec, xRec, zRec]` the middle record's `fix` fails to
spawn; the batch stops there, `zRec` is untouched and contributes nothing. -/
theorem C5_fix_all_first_error_witness :
    State.fix_allT adoptObs ([dRec] ++ xRec :: [zRec]) =
      ((Except.error (RunError.spawnFailed "no spawn"),
        [dRec].map (fun x => (x.fixT adoptObs).1.2) ++
          (xRec.fixT adoptObs).1.2 :: [zRec]),
        ([dRec].map (fun x => (x.fixT adoptObs).2)).flatten ++
          (xRec.fixT adoptObs).2) :=
  C5_fix_all_first_error adoptObs [dRec] xRec [zRec]
    (RunError.spawnFailed "no spawn")
    (fun x hx => by
      rw [List.mem_singleton] at hx
      subst hx
      rfl)
    rfl

/-- C6: `add` is atomic over the registry: a failing `run` of the freshly
constructed record returns the error with the registry unchanged, and a
successful one appends exactly one record with the given `cmd`, `name` and
`output` at the end in a `Running` status. -/
theorem C6_add_atomic (obs : Observer) (s : State) (cmd : String)
    (name : Option String) (output : Option String) :
    (∃ e, (State.addT obs s cmd name output).1 = (Except.error e, s)) ∨
    (∃ pid, (State.addT obs s cmd name output).1 =
      (Except.ok (),
        s ++ [⟨name, cmd, ProcessStatus.Running pid, output⟩])) := by
  have hu : (⟨name, cmd, ProcessStatus.Disabled, output⟩ : ProcessConfig).updateT obs =
      (⟨name, cmd, ProcessStatus.Disabled, output⟩, []) :=
    ProcessConfig.updateT_of_disabled obs _ rfl
  simp only [State.addT, ProcessConfig.runT, hu, ProcessConfig.is_running]
  rcases hsp : obs.runFromString cmd (Option.or output obs.getOutputPath) with e | res
  · exact Or.inl ⟨RunError.spawnFailed e, by simp [hsp]⟩
  · rcases hbp : obs.getByPid res with _ | proc
    · exact Or.inr ⟨res, by simp [hsp, hbp]⟩
    · by_cases hlen : proc.cmd.utf8ByteSize < 2
      · exact Or.inl ⟨RunError.panicEmptyCmd, by simp [hsp, hbp, hlen]⟩
      · by_cases hne : cmd ≠ proc.cmd
        · exact Or.inl ⟨RunError.panicChangedCmd, by simp [hsp, hbp, hlen, hne]⟩
        · exact Or.inr ⟨res, by simp [hsp, hbp, hlen, hne]⟩

/-- C8: under an observer in which every PID hosts a live process whose
command line equals the record's `cmd` — so the tracked process is confirmed
running no matter how many termination requests are sent — `kill` on an
enabled record exhausts any amount of fuel: the source's self-recursion never
returns. -/
theorem C8_kill_never_returns (obs : Observer) (c : ProcessConfig)
    (hlive : ∀ q, ∃ proc, obs.getByPid q = some proc ∧ proc.cmd = c.cmd)
    (hen : c.is_enabled = true) :
    ∀ fuel, c.killT obs fuel = none := by
  suffices h : ∀ fuel (c' : ProcessConfig),
      (∀ q, ∃ proc, obs.getByPid q = some proc ∧ proc.cmd = c'.cmd) →
      c'.is_enabled = true → c'.killT obs fuel = none by
    exact fun fuel => h fuel c hlive hen
  intro fuel
  induction fuel with
  | zero => intro c' _ _; rfl
  | succ n ih =>
    intro c' hlive' hen'
    obtain ⟨p, hp⟩ : ∃ p, c'.get_pid = some p := by
      rcases hst : c'.status with _ | p | p | p
      · rw [ProcessConfig.is_enabled, hst] at hen'
        exact absurd hen' (by simp)
      all_goals exact ⟨p, by rw [ProcessConfig.get_pid, hst]⟩
    obtain ⟨proc, hproc, hcmd⟩ := hlive' p
    have hcs : c'.check_statusT obs =
        (ProcessStatus.Running proc.pid, [ObsCall.byPid p]) := by
      simp [ProcessConfig.check_statusT, hp, hproc, hcmd]
    have hu : c'.updateT obs =
        ({ c' with status := ProcessStatus.Running proc.pid },
          [ObsCall.byPid p]) := by
      simp [ProcessConfig.updateT, hcs, ProcessConfig.is_running,
        ProcessConfig.is_enabled]
    have hrec : ({ c' with status := ProcessStatus.Running proc.pid } :
        ProcessConfig).killT obs n = none := by
      refine ih _ (fun q => ?_) rfl
      simpa using hlive' q
    simp [ProcessConfig.killT, hu, hrec]

/-- C8 witness: an enabled record under an observer where every PID hosts a
matching process; five units of fuel are not enough for `kill` to return. -/
theorem C8_kill_never_returns_witness :
    ProcessConfig.killT jobObs 5 ⟨none, "job", ProcessStatus.Running 7, none⟩ =
      none :=
  C8_kill_never_returns jobObs ⟨none, "job", ProcessStatus.Running 7, none⟩
    (fun q => ⟨⟨q, "job"⟩, rfl, rfl⟩) rfl 5

/-- C10: `add` never adopts: even when the observer has a live process whose
command line equals `cmd`, the record handed to `run` is `Disabled`, so the
adoption scan is never issued (no `get_by_cmd` call appears in the trace) and
the very first observer call is the spawn request. -/
theorem C10_add_never_adopts (obs : Observer) (s : State) (cmd : String)
    (name : Option String) (output : Option String) (ap : Proc)
    (_h : obs.getByCmd cmd = some ap) :
    ((State.addT obs s cmd name output).2).head? =
      some (ObsCall.spawnReq cmd (Option.or output obs.getOutputPath)) ∧
    ∀ str, ObsCall.byCmd str ∉ (State.addT obs s cmd name output).2 := by
  have hu : (⟨name, cmd, ProcessStatus.Disabled, output⟩ : ProcessConfig).updateT obs =
      (⟨name, cmd, ProcessStatus.Disabled, output⟩, []) :=
    ProcessConfig.updateT_of_disabled obs _ rfl
  simp only [State.addT, ProcessConfig.runT, hu, ProcessConfig.is_running]
  rcases hsp : obs.runFromString cmd (Option.or output obs.getOutputPath) with e | res
  · simp [hsp]
  · rcases hbp : obs.getByPid res with _ | proc
    · simp [hsp, hbp]
    · by_cases hlen : proc.cmd.utf8ByteSize < 2
      · simp [hsp, hbp, hlen]
      · by_cases hne : cmd ≠ proc.cmd
        · simp [hsp, hbp, hlen, hne]
        · simp [hsp, hbp, hlen, hne]

/-- C10 witness: adding `"x"` under an observer whose scan would find a live
process for `"x"`: the first observer call is still the spawn request. -/
theorem C10_add_never_adopts_witness :
    ((State.addT busyObs [] "x" none none).2).head? =
      some (ObsCall.spawnReq "x" (Option.or none busyObs.getOutputPath)) :=
  (C10_add_never_adopts busyObs [] "x" none none ⟨3, "x"⟩ rfl).1

/-- C7 counterexample: the bytes `"[]"` are a validly-shaped persisted state
(`load` accepts them as the empty registry), yet saving what was loaded
yields `"[]\n"` — the saver pretty-prints and appends a newline, so
`save(load(state_bytes)) = state_bytes` fails at this input. -/
theorem C7_roundtrip_counterexample :
    from_file_parse "[]" = some [] ∧
    (from_file_parse "[]").map to_file_content = some "[]\n" ∧
    ("[]\n" : String) ≠ "[]" :=
  ⟨rfl, rfl, by decide⟩

/-- C7 (amended): the round trip holds at the value level — loading a saved
state recovers it exactly, with record order, field order and status tag
encoding preserved — and therefore byte-identically on the saver's canonical
bytes: `save(load(save(state))) = save(state)`.  Byte identity on arbitrary
validly-shaped input fails (see the counterexample): the saver reformats. -/
theorem C7_roundtrip_amended (s : State) :
    from_file_parse (to_file_content s) = some s ∧
    (from_file_parse (to_file_content s)).map to_file_content =
      some (to_file_content s) := by
  have h := from_to_roundtrip s
  exact ⟨h, by rw [h]; rfl⟩

end Watchman
